import Mathlib

/-!
Shallow embedding of `poem-wasmhandler/src/funcs.rs` (the host side of the
wasm HTTP-handler ABI): the bounds-checked guest-memory accessor, the four
synchronous host functions, and the asynchronous `poll` primitive, together
with theorems settling the specification claims about them.

Guest linear memory is modelled as a `List Nat` of bytes; `u32` quantities
are `Nat` values with arithmetic taken `% 2^32` exactly where the Rust code
performs 32-bit (wrapping) arithmetic.
-/

/-- `2^32`, the modulus of `u32` arithmetic. -/
def U32MOD : Nat := 4294967296

/-- The host-side error type (`WasmHandlerError` in the crate): fatal
guest-contract violations that trap the invocation. -/
inductive WasmHandlerError where
  | MemoryNotFound
  | MemoryAccess
  | InvalidStatusCode
  | NoSubscriptions
deriving DecidableEq, Repr

/-- Little-endian byte encoding of `n` in `width` bytes (`to_le_bytes`). -/
def leBytes (width n : Nat) : List Nat :=
  (List.range width).map (fun i => n / 256 ^ i % 256)

/-- Overwrite the bytes of `memory` starting at `offset` with `data`.
Writes beyond the end of the region are dropped: the validated callers
never reach that case, and `poll`'s raw event write (which performs no
bounds check in the source) is modelled by the same truncating function. -/
def writeBytes (memory : List Nat) (offset : Nat) (data : List Nat) : List Nat :=
  memory.take offset ++ data.take (memory.length - offset) ++ memory.drop (offset + data.length)

/-- Read `count` bytes of `memory` starting at `offset` (a validated view). -/
def readBytes (memory : List Nat) (offset count : Nat) : List Nat :=
  (memory.drop offset).take count

/-- `get_memory_slice_mut(memory, offset, len)`:
`memory.get_mut(offset as usize..(offset + len) as usize)`, where the end
index `offset + len` is computed in `u32` (wrapping) arithmetic; the range
is valid exactly when its start is at most its end and its end is at most
the memory length; otherwise the access fails with `MemoryAccess`. -/
def get_memory_slice_mut (memory : List Nat) (offset len : Nat) :
    Except WasmHandlerError (List Nat) :=
  let endIdx := (offset + len) % U32MOD
  if offset ≤ endIdx ∧ endIdx ≤ memory.length then
    Except.ok ((memory.drop offset).take (endIdx - offset))
  else
    Except.error WasmHandlerError.MemoryAccess

/-- `set_ret_len(memory, buf, ret_len)`: validates a 4-byte window at `buf`
and writes `ret_len.to_le_bytes()` (little-endian `u32`) into it. -/
def set_ret_len (memory : List Nat) (buf ret_len : Nat) :
    Except WasmHandlerError (List Nat) :=
  match get_memory_slice_mut memory buf 4 with
  | Except.error e => Except.error e
  | Except.ok _ => Except.ok (writeBytes memory buf (leBytes 4 (ret_len % U32MOD)))

/-- The per-invocation endpoint state (`WasmEndpointState`) as far as the
host functions read and write it: the request line/headers snapshot, the
inbound body buffer, the EOF flag, and the bounded outbound body buffer. -/
structure WasmEndpointState where
  request : List Nat
  request_body_buf : List Nat
  request_body_eof : Bool
  response_body_buf : List Nat
deriving DecidableEq, Repr

/-- Modelled from the spec: status code `OK (0)` of the shared errno
enumeration (`poem_wasm::ffi::ERRNO_OK`, external to this crate). -/
def ERRNO_OK : Int := 0

/-- Modelled from the spec: the would-block status of the shared errno
enumeration (`poem_wasm::ffi::ERRNO_WOULD_BLOCK`, external to this crate);
the code only needs it to be distinct from `ERRNO_OK` and `ERRNO_UNKNOWN`. -/
def ERRNO_WOULD_BLOCK : Int := 1

/-- Modelled from the spec: the unknown-error status of the shared errno
enumeration (`poem_wasm::ffi::ERRNO_UNKNOWN`, external to this crate). -/
def ERRNO_UNKNOWN : Int := 2

/-- `read_request(buf, buf_len, request_len)`: if `buf_len` is smaller than
the length of `request` (compared as `u32`), only report the true length at
`request_len`; otherwise copy the request bytes to `buf` and report the
length.  Returns the new guest memory. -/
def read_request (memory : List Nat) (state : WasmEndpointState)
    (buf buf_len request_len : Nat) : Except WasmHandlerError (List Nat) :=
  let reqLen := state.request.length % U32MOD
  if buf_len < reqLen then
    set_ret_len memory request_len reqLen
  else
    match get_memory_slice_mut memory buf reqLen with
    | Except.error e => Except.error e
    | Except.ok _ => set_ret_len (writeBytes memory buf state.request) request_len reqLen

/-- `read_request_body(buf, buf_len, bytes_read)`: on EOF report `0` and
succeed; on an empty inbound buffer return `ERRNO_WOULD_BLOCK`; otherwise
copy `min(buf_len, remaining)` bytes out of the front of the inbound buffer
into guest memory and report the count.  Returns the new guest memory, the
new endpoint state and the errno. -/
def read_request_body (memory : List Nat) (state : WasmEndpointState)
    (buf buf_len bytes_read : Nat) :
    Except WasmHandlerError (List Nat × WasmEndpointState × Int) :=
  if state.request_body_eof then
    match set_ret_len memory bytes_read 0 with
    | Except.error e => Except.error e
    | Except.ok m => Except.ok (m, state, ERRNO_OK)
  else if state.request_body_buf.length = 0 then
    Except.ok (memory, state, ERRNO_WOULD_BLOCK)
  else
    let sz := min buf_len (state.request_body_buf.length % U32MOD)
    match get_memory_slice_mut memory buf sz with
    | Except.error e => Except.error e
    | Except.ok _ =>
      let m1 := writeBytes memory buf (state.request_body_buf.take sz)
      match set_ret_len m1 bytes_read sz with
      | Except.error e => Except.error e
      | Except.ok m2 =>
        Except.ok (m2, { state with request_body_buf := state.request_body_buf.drop sz },
          ERRNO_OK)

/-- `write_response_body(data, data_len, bytes_written)`: validates the
`data` region, computes `sz = min(data_len, 4096 - response_body_buf.len())`
(the subtraction in wrapping `u32` arithmetic), returns
`ERRNO_WOULD_BLOCK` when `sz = 0`, and otherwise appends the first `sz`
bytes of the region to the outbound buffer and reports `sz`. -/
def write_response_body (memory : List Nat) (state : WasmEndpointState)
    (data data_len bytes_written : Nat) :
    Except WasmHandlerError (List Nat × WasmEndpointState × Int) :=
  match get_memory_slice_mut memory data data_len with
  | Except.error e => Except.error e
  | Except.ok dataSlice =>
    let sz := min data_len ((4096 + U32MOD - state.response_body_buf.length % U32MOD) % U32MOD)
    if sz = 0 then
      Except.ok (memory, state, ERRNO_WOULD_BLOCK)
    else
      match set_ret_len memory bytes_written sz with
      | Except.error e => Except.error e
      | Except.ok m =>
        Except.ok (m, { state with response_body_buf := state.response_body_buf ++ dataSlice.take sz },
          ERRNO_OK)

/-- Modelled from the spec: `StatusCode::from_u16` of the external `http`
crate succeeds exactly for codes in `100..=999` (its documented contract);
`send_response` maps its failure to `InvalidStatusCode`. -/
def statusCode_from_u16_ok (status : Nat) : Bool :=
  100 ≤ status && status ≤ 999

/-- Modelled from the spec: the header block is decoded by the external
collaborator `poem_wasm::decode_headers`, whose exact grammar is out of
scope; the decoded header set is modelled as the raw header text itself. -/
def decode_headers (data : List Nat) : List Nat := data

/-- Whether a byte list is valid UTF-8 (the check `std::str::from_utf8`
performs; `send_response` panics via `expect` when it fails). -/
def utf8Valid : List Nat → Bool
  | [] => true
  | c :: rest =>
    if c ≤ 0x7F then utf8Valid rest
    else if 0xC2 ≤ c && c ≤ 0xDF then
      match rest with
      | c1 :: r => (0x80 ≤ c1 && c1 ≤ 0xBF) && utf8Valid r
      | [] => false
    else if c = 0xE0 then
      match rest with
      | c1 :: c2 :: r =>
        (0xA0 ≤ c1 && c1 ≤ 0xBF) && (0x80 ≤ c2 && c2 ≤ 0xBF) && utf8Valid r
      | _ => false
    else if (0xE1 ≤ c && c ≤ 0xEC) || (0xEE ≤ c && c ≤ 0xEF) then
      match rest with
      | c1 :: c2 :: r =>
        (0x80 ≤ c1 && c1 ≤ 0xBF) && (0x80 ≤ c2 && c2 ≤ 0xBF) && utf8Valid r
      | _ => false
    else if c = 0xED then
      match rest with
      | c1 :: c2 :: r =>
        (0x80 ≤ c1 && c1 ≤ 0x9F) && (0x80 ≤ c2 && c2 ≤ 0xBF) && utf8Valid r
      | _ => false
    else if c = 0xF0 then
      match rest with
      | c1 :: c2 :: c3 :: r =>
        (0x90 ≤ c1 && c1 ≤ 0xBF) && (0x80 ≤ c2 && c2 ≤ 0xBF) &&
          (0x80 ≤ c3 && c3 ≤ 0xBF) && utf8Valid r
      | _ => false
    else if 0xF1 ≤ c && c ≤ 0xF3 then
      match rest with
      | c1 :: c2 :: c3 :: r =>
        (0x80 ≤ c1 && c1 ≤ 0xBF) && (0x80 ≤ c2 && c2 ≤ 0xBF) &&
          (0x80 ≤ c3 && c3 ≤ 0xBF) && utf8Valid r
      | _ => false
    else if c = 0xF4 then
      match rest with
      | c1 :: c2 :: c3 :: r =>
        (0x80 ≤ c1 && c1 ≤ 0x8F) && (0x80 ≤ c2 && c2 ≤ 0xBF) &&
          (0x80 ≤ c3 && c3 ≤ 0xBF) && utf8Valid r
      | _ => false
    else false

/-- The observable outcome of `send_response`: a fatal trap, a panic on a
non-UTF-8 header block (`expect("valid header map")`), or delivery of the
status and decoded headers through the response notifier (whose own failure
the code silently ignores). -/
inductive SendOutcome where
  | fatal (e : WasmHandlerError)
  | utf8Panic
  | delivered (status : Nat) (headers : List Nat)
deriving DecidableEq, Repr

/-- `send_response(status, headers_buf, headers_buf_len)`: rejects `status`
above `u16::MAX` and statuses `StatusCode::from_u16` refuses, both with
`InvalidStatusCode`; validates the header region; decodes it as UTF-8 text
(panicking on invalid UTF-8) and delivers `(status, headers)`. -/
def send_response (memory : List Nat) (status headers_buf headers_buf_len : Nat) :
    SendOutcome :=
  if 65535 < status then SendOutcome.fatal WasmHandlerError.InvalidStatusCode
  else if ¬ statusCode_from_u16_ok (status % 65536) then
    SendOutcome.fatal WasmHandlerError.InvalidStatusCode
  else
    match get_memory_slice_mut memory headers_buf headers_buf_len with
    | Except.error e => SendOutcome.fatal e
    | Except.ok data =>
      if utf8Valid data then SendOutcome.delivered (status % 65536) (decode_headers data)
      else SendOutcome.utf8Panic

/-- Modelled from the spec: the subscription kind tag for request-readable
(`poem_wasm::ffi::SUBSCRIPTION_TYPE_REQUEST_READ`, external to this crate);
the code only compares tags for equality, so only distinctness matters. -/
def SUBSCRIPTION_TYPE_REQUEST_READ : Nat := 1

/-- Modelled from the spec: the subscription kind tag for response-writable
(`poem_wasm::ffi::SUBSCRIPTION_TYPE_RESPONSE_WRITE`, external to this crate). -/
def SUBSCRIPTION_TYPE_RESPONSE_WRITE : Nat := 2

/-- Modelled from the spec: the subscription kind tag for timeouts
(`poem_wasm::ffi::SUBSCRIPTION_TYPE_TIMEOUT`, external to this crate). -/
def SUBSCRIPTION_TYPE_TIMEOUT : Nat := 3

/-- Modelled from the spec: a fixed-size subscription record
(`poem_wasm::ffi::RawSubscription`, external to this crate): a kind tag, an
opaque 64-bit userdata value, and a kind-specific payload (for timeouts, a
millisecond duration). -/
structure RawSubscription where
  ty : Nat
  userdata : Nat
  timeout : Nat
deriving DecidableEq, Repr

/-- Modelled from the spec: the event record written back by `poll`
(`poem_wasm::ffi::RawEvent`, external to this crate): kind tag, echoed
userdata, and a status code. -/
structure RawEvent where
  ty : Nat
  userdata : Nat
  errno : Int
deriving DecidableEq, Repr

/-- Little-endian decoding of a byte list into a `Nat`. -/
def decodeLe (bytes : List Nat) : Nat :=
  bytes.foldr (fun b acc => acc * 256 + b % 256) 0

/-- An unchecked raw read of `count` bytes at `offset`: the model of
`std::slice::from_raw_parts` on the guest-memory base pointer.  The code
performs no bounds validation here; bytes beyond the region (undefined
behavior in the source) are modelled as `0`. -/
def readBytesRaw (memory : List Nat) (offset count : Nat) : List Nat :=
  (List.range count).map (fun i => memory.getD (offset + i) 0)

/-- Modelled from the spec: the in-memory layout of a subscription record,
16 bytes: tag (4, LE), userdata (8, LE), payload (4, LE).  The exact layout
lives in the external `poem_wasm::ffi` module. -/
def decodeRawSubscription (bytes : List Nat) : RawSubscription :=
  { ty := decodeLe (bytes.take 4)
    userdata := decodeLe ((bytes.drop 4).take 8)
    timeout := decodeLe ((bytes.drop 12).take 4) }

/-- `poll`'s unchecked read of the subscription array: `num` records of 16
bytes each starting at `offset`, with no bounds validation (raw pointers in
the source). -/
def readSubscriptionArray (memory : List Nat) (offset num : Nat) : List RawSubscription :=
  (List.range num).map (fun i => decodeRawSubscription (readBytesRaw memory (offset + 16 * i) 16))

/-- Modelled from the spec: the byte encoding of an event record, 16 bytes:
tag (4, LE), userdata (8, LE), errno (4, LE, two's-complement `i32`). -/
def encodeRawEvent (ev : RawEvent) : List Nat :=
  leBytes 4 ev.ty ++ leBytes 8 ev.userdata ++ leBytes 4 (Int.toNat (ev.errno % (2 ^ 32 : Int)))

/-- One element of the future list `poll` builds: the request-readable
reader, the response-writable writer, or a timer. -/
inductive PollFuture where
  | reqRead (userdata : Nat)
  | respWrite (userdata : Nat)
  | timer (userdata : Nat) (ms : Nat)
deriving DecidableEq, Repr

/-- The environment's answer for the future that wins `select_all`: what the
body-source read returned (`Ok` with the bytes read, or an error), what the
body-sink write returned (`Ok` with the accepted count, or an error), or a
timer expiry. -/
inductive IoOutcome where
  | readOk (bytes : List Nat)
  | readErr
  | writeOk (sz : Nat)
  | writeErr
  | timerFired
deriving DecidableEq, Repr

/-- The list of futures `poll` pushes: the first request-readable
subscription (if any), then the first response-writable subscription (if
any), then one timer per timeout subscription in list order. -/
def pollFutures (subs : List RawSubscription) : List PollFuture :=
  (match subs.find? (fun s => s.ty == SUBSCRIPTION_TYPE_REQUEST_READ) with
   | some item => [PollFuture.reqRead item.userdata]
   | none => []) ++
  (match subs.find? (fun s => s.ty == SUBSCRIPTION_TYPE_RESPONSE_WRITE) with
   | some item => [PollFuture.respWrite item.userdata]
   | none => []) ++
  (subs.filter (fun s => s.ty == SUBSCRIPTION_TYPE_TIMEOUT)).map
    (fun s => PollFuture.timer s.userdata s.timeout)

/-- The completion of a single future under an I/O outcome: the state
update it performs at its own completion and the event it resolves with.
`none` marks outcome/future pairs that are not executions of the code (a
kind mismatch, a read longer than the 4096-byte scratch buffer, or a write
count beyond the buffered bytes). -/
def resolveFuture (st : WasmEndpointState) :
    PollFuture → IoOutcome → Option (WasmEndpointState × RawEvent)
  | PollFuture.reqRead u, IoOutcome.readOk bytes =>
    if 4096 < bytes.length then none
    else if bytes.length = 0 then
      some ({ st with request_body_eof := true },
        { ty := SUBSCRIPTION_TYPE_REQUEST_READ, userdata := u, errno := ERRNO_OK })
    else
      some ({ st with request_body_buf := st.request_body_buf ++ bytes },
        { ty := SUBSCRIPTION_TYPE_REQUEST_READ, userdata := u, errno := ERRNO_OK })
  | PollFuture.reqRead u, IoOutcome.readErr =>
    some (st, { ty := SUBSCRIPTION_TYPE_REQUEST_READ, userdata := u, errno := ERRNO_UNKNOWN })
  | PollFuture.respWrite u, IoOutcome.writeOk sz =>
    if st.response_body_buf.length < sz then none
    else
      some ({ st with response_body_buf := st.response_body_buf.drop sz },
        { ty := SUBSCRIPTION_TYPE_RESPONSE_WRITE, userdata := u, errno := ERRNO_OK })
  | PollFuture.respWrite u, IoOutcome.writeErr =>
    some (st, { ty := SUBSCRIPTION_TYPE_RESPONSE_WRITE, userdata := u, errno := ERRNO_UNKNOWN })
  | PollFuture.timer u _, IoOutcome.timerFired =>
    some (st, { ty := SUBSCRIPTION_TYPE_TIMEOUT, userdata := u, errno := ERRNO_OK })
  | _, _ => none

/-- The observable outcome of a `poll` call: a fatal trap, the panic of
`select_all` on an empty future list, a `(winner, outcome)` oracle that
names no actual execution, or completion with the new guest memory (event
record written), the new endpoint state, and the resolved event. -/
inductive PollResult where
  | fatal (e : WasmHandlerError)
  | panic
  | stuck
  | ok (memory : List Nat) (st : WasmEndpointState) (ev : RawEvent)
deriving DecidableEq, Repr

/-- `poll(subscriptions, num_subscriptions, event)`: rejects an empty
subscription set with `NoSubscriptions`; reads the subscription array via
an unchecked raw pointer; builds the future list (first request-readable
match, first response-writable match, every timeout); races them — the
oracle `(winner, outcome)` names which future `select_all` resolves first
and what its I/O produced — and writes the winning event record to guest
memory via an unchecked raw pointer. -/
def poll (memory : List Nat) (st : WasmEndpointState)
    (subscriptions num_subscriptions event : Nat)
    (winner : Nat) (outcome : IoOutcome) : PollResult :=
  if num_subscriptions = 0 then PollResult.fatal WasmHandlerError.NoSubscriptions
  else
    let subs := readSubscriptionArray memory subscriptions num_subscriptions
    let futures := pollFutures subs
    match futures.get? winner with
    | none => if futures.isEmpty then PollResult.panic else PollResult.stuck
    | some f =>
      match resolveFuture st f outcome with
      | none => PollResult.stuck
      | some (st', ev) =>
        PollResult.ok (writeBytes memory event (encodeRawEvent ev)) st' ev

lemma get_memory_slice_mut_eq_ok (memory : List Nat) (offset len : Nat)
    (h : offset + len ≤ memory.length) (h2 : offset + len < U32MOD) :
    get_memory_slice_mut memory offset len = Except.ok (readBytes memory offset len) := by
  have he : (offset + len) % U32MOD = offset + len := Nat.mod_eq_of_lt h2
  simp only [get_memory_slice_mut, he]
  rw [if_pos ⟨by omega, h⟩]
  simp [readBytes]

lemma get_memory_slice_mut_eq_err (memory : List Nat) (offset len : Nat)
    (ho : offset < U32MOD) (hl : len < U32MOD) (h : memory.length < offset + len) :
    get_memory_slice_mut memory offset len = Except.error WasmHandlerError.MemoryAccess := by
  have hneg : ¬ (offset ≤ (offset + len) % U32MOD ∧ (offset + len) % U32MOD ≤ memory.length) := by
    rcases Nat.lt_or_ge (offset + len) U32MOD with hlt | hge
    · rw [Nat.mod_eq_of_lt hlt]
      omega
    · have : (offset + len) % U32MOD = offset + len - U32MOD := by
        rw [Nat.mod_eq_sub_mod hge, Nat.mod_eq_of_lt (by omega)]
      omega
  simp only [get_memory_slice_mut]
  rw [if_neg hneg]

lemma set_ret_len_eq_ok (memory : List Nat) (buf ret : Nat)
    (h : buf + 4 ≤ memory.length) (hm : memory.length < U32MOD) :
    set_ret_len memory buf ret =
      Except.ok (writeBytes memory buf (leBytes 4 (ret % U32MOD))) := by
  simp only [set_ret_len, get_memory_slice_mut_eq_ok memory buf 4 h (by omega)]

/-- C2 (amended): for `u32` offset/length and a memory region smaller than
`2^32` bytes, the accessor returns the slice of exactly `len` bytes at
`offset` iff `offset + len` is within the memory size, and fails with
`MemoryAccess` on every out-of-range pair. -/
theorem C2_accessor :
    ∀ (memory : List Nat) (offset len : Nat),
      offset < U32MOD → len < U32MOD → memory.length < U32MOD →
      ((get_memory_slice_mut memory offset len =
            Except.ok (readBytes memory offset len) ∧
          (readBytes memory offset len).length = len) ↔
        offset + len ≤ memory.length) ∧
      (memory.length < offset + len →
        get_memory_slice_mut memory offset len =
          Except.error WasmHandlerError.MemoryAccess) := by
  intro memory offset len ho hl hm
  by_cases hle : offset + len ≤ memory.length
  · constructor
    · constructor
      · intro _
        exact hle
      · intro _
        refine ⟨get_memory_slice_mut_eq_ok memory offset len hle (by omega), ?_⟩
        simp only [readBytes, List.length_take, List.length_drop]
        omega
    · intro h
      omega
  · have herr := get_memory_slice_mut_eq_err memory offset len ho hl (by omega)
    constructor
    · constructor
      · rintro ⟨hok, -⟩
        rw [herr] at hok
        exact absurd hok (by simp)
      · intro h
        omega
    · intro _
      exact herr

/-- C2 counterexample: at a memory of exactly `2^32` bytes, the pair
`(1, 2^32 - 1)` lies within the memory size yet the accessor fails with
`MemoryAccess`, because the end index `offset + len` is computed in
wrapping 32-bit arithmetic. -/
theorem C2_claim_false :
    1 + (U32MOD - 1) ≤ (List.replicate U32MOD (0 : Nat)).length ∧
    get_memory_slice_mut (List.replicate U32MOD (0 : Nat)) 1 (U32MOD - 1) =
      Except.error WasmHandlerError.MemoryAccess := by
  constructor
  · norm_num [U32MOD]
  · have hneg : ¬ ((1 : Nat) ≤ (1 + (U32MOD - 1)) % U32MOD ∧
        (1 + (U32MOD - 1)) % U32MOD ≤ (List.replicate U32MOD (0 : Nat)).length) := by
      norm_num [U32MOD]
    simp only [get_memory_slice_mut]
    rw [if_neg hneg]

/-- C2 witness: the accessor evaluated at a concrete in-range and a
concrete out-of-range pair. -/
theorem C2_accessor_witness :
    get_memory_slice_mut [1, 2, 3, 4, 5, 6, 7, 8] 2 3 =
      Except.ok (readBytes [1, 2, 3, 4, 5, 6, 7, 8] 2 3) ∧
    get_memory_slice_mut [1, 2, 3, 4, 5, 6, 7, 8] 6 3 =
      Except.error WasmHandlerError.MemoryAccess := by
  have h := C2_accessor [1, 2, 3, 4, 5, 6, 7, 8] 2 3 (by norm_num [U32MOD])
    (by norm_num [U32MOD]) (by norm_num [U32MOD])
  have h2 := C2_accessor [1, 2, 3, 4, 5, 6, 7, 8] 6 3 (by norm_num [U32MOD])
    (by norm_num [U32MOD]) (by norm_num [U32MOD])
  exact ⟨(h.1.mpr (by norm_num)).1, h2.2 (by norm_num)⟩

/-- C3 counterexample: a `write_response_body` call with requested length
`0` on an empty outbound buffer (free capacity `4096`) returns
`ERRNO_WOULD_BLOCK` even though the free capacity is not zero, so
"would-block exactly when the free capacity is zero" fails. -/
theorem C3_claim_false :
    write_response_body (List.replicate 8 0) ⟨[], [], false, []⟩ 0 0 4 =
      Except.ok (List.replicate 8 0, ⟨[], [], false, []⟩, ERRNO_WOULD_BLOCK) ∧
    4096 - ([] : List Nat).length ≠ 0 := by
  constructor
  · rfl
  · simp

/-- C3 (amended): with a valid `data` region and a valid 4-byte
`bytes_written` region, and the outbound buffer within its 4096-byte cap,
`write_response_body` returns `ERRNO_WOULD_BLOCK` (copying nothing and
reporting nothing) exactly when `min(data_len, free capacity) = 0`, i.e.
when the capacity is zero or the requested length is zero; otherwise it
appends exactly `min(data_len, free capacity)` bytes read from guest
memory at `data` to the buffer tail and reports that count with
`ERRNO_OK`. -/
theorem C3_write_response_body :
    ∀ (memory : List Nat) (state : WasmEndpointState) (data data_len bytes_written : Nat),
      state.response_body_buf.length ≤ 4096 →
      data_len < U32MOD → memory.length < U32MOD →
      data + data_len ≤ memory.length →
      bytes_written + 4 ≤ memory.length →
      (min data_len (4096 - state.response_body_buf.length) = 0 →
        write_response_body memory state data data_len bytes_written =
          Except.ok (memory, state, ERRNO_WOULD_BLOCK)) ∧
      (0 < min data_len (4096 - state.response_body_buf.length) →
        write_response_body memory state data data_len bytes_written =
          Except.ok
            (writeBytes memory bytes_written
              (leBytes 4 (min data_len (4096 - state.response_body_buf.length))),
            { state with
                response_body_buf := state.response_body_buf ++
                  readBytes memory data (min data_len (4096 - state.response_body_buf.length)) },
            ERRNO_OK)) := by
  intro memory state data data_len bytes_written hcap hdl hm hdata hbw
  have hfree : (4096 + U32MOD - state.response_body_buf.length % U32MOD) % U32MOD =
      4096 - state.response_body_buf.length := by
    have h1 : state.response_body_buf.length % U32MOD = state.response_body_buf.length :=
      Nat.mod_eq_of_lt (by unfold U32MOD; omega)
    rw [h1, Nat.mod_eq_sub_mod (by omega), Nat.mod_eq_of_lt (by unfold U32MOD; omega)]
    omega
  have hslice := get_memory_slice_mut_eq_ok memory data data_len hdata (by omega)
  have hsz : min data_len ((4096 + U32MOD - state.response_body_buf.length % U32MOD) % U32MOD)
      = min data_len (4096 - state.response_body_buf.length) := by rw [hfree]
  constructor
  · intro h0
    simp only [write_response_body, hslice, hsz, h0]
    rfl
  · intro hpos
    have hne : ¬ (min data_len (4096 - state.response_body_buf.length) = 0) := by omega
    simp only [write_response_body, hslice, hsz]
    rw [if_neg hne, set_ret_len_eq_ok memory bytes_written _ hbw hm]
    have htake : (readBytes memory data data_len).take
        (min data_len (4096 - state.response_body_buf.length)) =
        readBytes memory data (min data_len (4096 - state.response_body_buf.length)) := by
      simp only [readBytes, List.take_take]
      rw [Nat.min_comm data_len _, Nat.min_assoc]
      simp
    rw [htake]
    have hmod : min data_len (4096 - state.response_body_buf.length) % U32MOD =
        min data_len (4096 - state.response_body_buf.length) := by
      apply Nat.mod_eq_of_lt
      omega
    rw [hmod]

/-- C3 witness: with two bytes buffered, a 3-byte request is accepted in
full with `ERRNO_OK`, and a zero-length request answers with
`ERRNO_WOULD_BLOCK` leaving memory and state unchanged. -/
theorem C3_write_response_body_witness :
    write_response_body (List.replicate 12 7) ⟨[], [], false, [1, 2]⟩ 0 3 8 =
      Except.ok (writeBytes (List.replicate 12 7) 8 (leBytes 4 3),
        ⟨[], [], false, [1, 2, 7, 7, 7]⟩, ERRNO_OK) ∧
    write_response_body (List.replicate 12 7) ⟨[], [], false, [1, 2]⟩ 4 0 8 =
      Except.ok (List.replicate 12 7, ⟨[], [], false, [1, 2]⟩, ERRNO_WOULD_BLOCK) := by
  have h := C3_write_response_body (List.replicate 12 7) ⟨[], [], false, [1, 2]⟩
    0 3 8 (by decide) (by decide) (by decide) (by decide) (by decide)
  have h2 := C3_write_response_body (List.replicate 12 7) ⟨[], [], false, [1, 2]⟩
    4 0 8 (by decide) (by decide) (by decide) (by decide) (by decide)
  exact ⟨h.2 (by decide), h2.1 (by decide)⟩

lemma length_leBytes (width n : Nat) : (leBytes width n).length = width := by
  simp [leBytes]

lemma writeBytes_eq_of_le (mem : List Nat) (o : Nat) (d : List Nat)
    (h : o + d.length ≤ mem.length) :
    writeBytes mem o d = mem.take o ++ d ++ mem.drop (o + d.length) := by
  unfold writeBytes
  rw [List.take_of_length_le (show d.length ≤ mem.length - o by omega)]

lemma length_writeBytes (mem : List Nat) (o : Nat) (d : List Nat) :
    (writeBytes mem o d).length = mem.length := by
  simp only [writeBytes, List.length_append, List.length_take, List.length_drop]
  omega

lemma readBytes_writeBytes_self (mem : List Nat) (o : Nat) (d : List Nat)
    (h : o + d.length ≤ mem.length) :
    readBytes (writeBytes mem o d) o d.length = d := by
  rw [readBytes, writeBytes_eq_of_le mem o d h, List.append_assoc,
    List.drop_left' (by simp only [List.length_take]; omega),
    List.take_left' rfl]

lemma readBytes_writeBytes_before (mem : List Nat) (o : Nat) (d : List Nat) (o' n : Nat)
    (h : o + d.length ≤ mem.length) (hd : o' + n ≤ o) :
    readBytes (writeBytes mem o d) o' n = readBytes mem o' n := by
  rw [readBytes, readBytes, writeBytes_eq_of_le mem o d h, List.append_assoc,
    List.drop_append_of_le_length (by simp only [List.length_take]; omega),
    List.take_append_of_le_length
      (by simp only [List.length_drop, List.length_take]; omega),
    List.drop_take, List.take_take]
  congr 1
  omega

lemma readBytes_writeBytes_after (mem : List Nat) (o : Nat) (d : List Nat) (o' n : Nat)
    (h : o + d.length ≤ mem.length) (hd : o + d.length ≤ o') :
    readBytes (writeBytes mem o d) o' n = readBytes mem o' n := by
  have key : ∀ k, readBytes (writeBytes mem o d) ((mem.take o ++ d).length + k) n =
      (mem.drop (o + d.length + k)).take n := by
    intro k
    rw [readBytes, writeBytes_eq_of_le mem o d h, List.drop_append, List.drop_drop]
  have hL : (mem.take o ++ d).length = o + d.length := by
    simp only [List.length_append, List.length_take]
    omega
  have hth := key (o' - o - d.length)
  rw [hL] at hth
  have ho' : o + d.length + (o' - o - d.length) = o' := by omega
  rw [ho'] at hth
  rw [hth, readBytes]

/-- C4 (confirmed): with a valid 4-byte out-length region, `read_request`
always succeeds and writes the true request length there; when
`buf_len < len(request_text)` it copies nothing else, and when
`buf_len ≥ len(request_text)` (and the destination region is valid) it
copies the request text byte-for-byte to `buf`. -/
theorem C4_read_request :
    ∀ (memory : List Nat) (state : WasmEndpointState) (buf buf_len request_len : Nat),
      state.request.length < U32MOD → memory.length < U32MOD →
      request_len + 4 ≤ memory.length →
      (buf_len < state.request.length →
        read_request memory state buf buf_len request_len =
          Except.ok (writeBytes memory request_len (leBytes 4 state.request.length))) ∧
      (state.request.length ≤ buf_len →
        buf + state.request.length ≤ memory.length →
        read_request memory state buf buf_len request_len =
          Except.ok (writeBytes (writeBytes memory buf state.request) request_len
            (leBytes 4 state.request.length)) ∧
        ((buf + state.request.length ≤ request_len ∨ request_len + 4 ≤ buf) →
          readBytes (writeBytes (writeBytes memory buf state.request) request_len
              (leBytes 4 state.request.length)) buf state.request.length =
            state.request ∧
          readBytes (writeBytes (writeBytes memory buf state.request) request_len
              (leBytes 4 state.request.length)) request_len 4 =
            leBytes 4 state.request.length)) := by
  intro memory state buf buf_len request_len hreq hm hrl
  have hmodL : state.request.length % U32MOD = state.request.length := Nat.mod_eq_of_lt hreq
  constructor
  · intro hsmall
    simp only [read_request, hmodL]
    rw [if_pos hsmall, set_ret_len_eq_ok memory request_len _ hrl hm, hmodL]
  · intro hbig hbuf
    have hnot : ¬ (buf_len < state.request.length) := by omega
    have hW : (writeBytes memory buf state.request).length = memory.length :=
      length_writeBytes memory buf state.request
    constructor
    · simp only [read_request, hmodL]
      rw [if_neg hnot,
        get_memory_slice_mut_eq_ok memory buf state.request.length hbuf (by omega),
        set_ret_len_eq_ok (writeBytes memory buf state.request) request_len _
          (by omega) (by omega), hmodL]
    · intro hdisj
      constructor
      · have hin : request_len + (leBytes 4 state.request.length).length ≤
            (writeBytes memory buf state.request).length := by
          rw [length_leBytes, hW]
          omega
        rcases hdisj with hlt | hgt
        · rw [readBytes_writeBytes_before _ _ _ _ _ hin hlt]
          exact readBytes_writeBytes_self memory buf state.request hbuf
        · rw [readBytes_writeBytes_after _ _ _ _ _ hin (by rw [length_leBytes]; omega)]
          exact readBytes_writeBytes_self memory buf state.request hbuf
      · have h4 : 4 = (leBytes 4 state.request.length).length := (length_leBytes 4 _).symm
        rw [h4]
        exact readBytes_writeBytes_self (writeBytes memory buf state.request) request_len _
          (by rw [length_leBytes, hW]; omega)

/-- C4 witness: a 3-byte request against a 2-byte guest buffer (length
reported, nothing copied) and against a 3-byte guest buffer (all bytes
copied and read back). -/
theorem C4_read_request_witness :
    read_request (List.replicate 12 0) ⟨[10, 11, 12], [], false, []⟩ 0 2 4 =
      Except.ok (writeBytes (List.replicate 12 0) 4 (leBytes 4 3)) ∧
    read_request (List.replicate 12 0) ⟨[10, 11, 12], [], false, []⟩ 0 3 4 =
      Except.ok (writeBytes (writeBytes (List.replicate 12 0) 0 [10, 11, 12]) 4
        (leBytes 4 3)) ∧
    readBytes (writeBytes (writeBytes (List.replicate 12 0) 0 [10, 11, 12]) 4
      (leBytes 4 3)) 0 3 = [10, 11, 12] := by
  have h := C4_read_request (List.replicate 12 0) ⟨[10, 11, 12], [], false, []⟩ 0 2 4
    (by decide) (by decide) (by decide)
  have h2 := C4_read_request (List.replicate 12 0) ⟨[10, 11, 12], [], false, []⟩ 0 3 4
    (by decide) (by decide) (by decide)
  refine ⟨h.1 (by decide), (h2.2 (by decide) (by decide)).1, ?_⟩
  exact ((h2.2 (by decide) (by decide)).2 (by decide)).1

/-- C5 (confirmed): `read_request_body` reports `0` with `ERRNO_OK` once
EOF has been observed, regardless of buffer contents; returns
`ERRNO_WOULD_BLOCK` on an empty buffer before EOF; and otherwise moves
exactly `min(buf_len, available)` bytes from the front of the inbound
buffer into guest memory, reporting that count with `ERRNO_OK`. -/
theorem C5_read_request_body :
    ∀ (memory : List Nat) (state : WasmEndpointState) (buf buf_len bytes_read : Nat),
      memory.length < U32MOD →
      state.request_body_buf.length < U32MOD →
      (state.request_body_eof = true →
        bytes_read + 4 ≤ memory.length →
        read_request_body memory state buf buf_len bytes_read =
          Except.ok (writeBytes memory bytes_read (leBytes 4 0), state, ERRNO_OK)) ∧
      (state.request_body_eof = false → state.request_body_buf = [] →
        read_request_body memory state buf buf_len bytes_read =
          Except.ok (memory, state, ERRNO_WOULD_BLOCK)) ∧
      (state.request_body_eof = false → state.request_body_buf ≠ [] →
        buf + min buf_len state.request_body_buf.length ≤ memory.length →
        bytes_read + 4 ≤ memory.length →
        read_request_body memory state buf buf_len bytes_read =
          Except.ok
            (writeBytes (writeBytes memory buf
                (state.request_body_buf.take (min buf_len state.request_body_buf.length)))
              bytes_read (leBytes 4 (min buf_len state.request_body_buf.length)),
            { state with request_body_buf :=
                state.request_body_buf.drop (min buf_len state.request_body_buf.length) },
            ERRNO_OK)) := by
  intro memory state buf buf_len bytes_read hm hL
  have hmodL : state.request_body_buf.length % U32MOD = state.request_body_buf.length :=
    Nat.mod_eq_of_lt hL
  refine ⟨?_, ?_, ?_⟩
  · intro heof hbr
    simp only [read_request_body, heof, if_true,
      set_ret_len_eq_ok memory bytes_read 0 hbr hm, Nat.zero_mod]
  · intro heof hempty
    simp only [read_request_body, heof, Bool.false_eq_true, if_false, hempty,
      List.length_nil, if_true]
  · intro heof hne hbuf hbr
    have hlen : ¬ (state.request_body_buf.length = 0) := by
      simpa [List.length_eq_zero] using hne
    have hsz : min buf_len (state.request_body_buf.length % U32MOD) =
        min buf_len state.request_body_buf.length := by rw [hmodL]
    have hszlt : min buf_len state.request_body_buf.length < U32MOD := by
      have := Nat.min_le_right buf_len state.request_body_buf.length
      omega
    have hW : (writeBytes memory buf
        (state.request_body_buf.take (min buf_len state.request_body_buf.length))).length =
        memory.length := length_writeBytes _ _ _
    simp only [read_request_body, heof, Bool.false_eq_true, if_false, hlen, hsz,
      get_memory_slice_mut_eq_ok memory buf (min buf_len state.request_body_buf.length)
        hbuf (by omega),
      set_ret_len_eq_ok _ bytes_read _ (by rw [hW]; exact hbr) (by rw [hW]; exact hm),
      Nat.mod_eq_of_lt hszlt]

/-- C5 witness: the three behaviors at concrete inputs — EOF, empty
buffer, and a 2-of-3-byte copy. -/
theorem C5_read_request_body_witness :
    read_request_body (List.replicate 8 0) ⟨[], [9, 9], true, []⟩ 0 2 4 =
      Except.ok (writeBytes (List.replicate 8 0) 4 (leBytes 4 0), ⟨[], [9, 9], true, []⟩,
        ERRNO_OK) ∧
    read_request_body (List.replicate 8 0) ⟨[], [], false, []⟩ 0 2 4 =
      Except.ok (List.replicate 8 0, ⟨[], [], false, []⟩, ERRNO_WOULD_BLOCK) ∧
    read_request_body (List.replicate 8 0) ⟨[], [5, 6, 7], false, []⟩ 0 2 4 =
      Except.ok (writeBytes (writeBytes (List.replicate 8 0) 0 [5, 6])
          4 (leBytes 4 2), ⟨[], [7], false, []⟩, ERRNO_OK) := by
  have h1 := C5_read_request_body (List.replicate 8 0) ⟨[], [9, 9], true, []⟩ 0 2 4
    (by decide) (by decide)
  have h2 := C5_read_request_body (List.replicate 8 0) ⟨[], [], false, []⟩ 0 2 4
    (by decide) (by decide)
  have h3 := C5_read_request_body (List.replicate 8 0) ⟨[], [5, 6, 7], false, []⟩ 0 2 4
    (by decide) (by decide)
  exact ⟨h1.1 rfl (by decide), h2.2.1 rfl rfl, h3.2.2 rfl (by decide) (by decide) (by decide)⟩

/-- C10 (confirmed): whenever `read_request_body` or `write_response_body`
returns the `ERRNO_WOULD_BLOCK` status, guest memory (in particular the
out-length location) and the endpoint state (both buffers and the EOF
flag) are unchanged. -/
theorem C10_would_block_frame :
    (∀ (memory : List Nat) (state : WasmEndpointState) (buf buf_len bytes_read : Nat)
      (m : List Nat) (st : WasmEndpointState) (e : Int),
      read_request_body memory state buf buf_len bytes_read = Except.ok (m, st, e) →
      e = ERRNO_WOULD_BLOCK → m = memory ∧ st = state) ∧
    (∀ (memory : List Nat) (state : WasmEndpointState) (data data_len bytes_written : Nat)
      (m : List Nat) (st : WasmEndpointState) (e : Int),
      write_response_body memory state data data_len bytes_written = Except.ok (m, st, e) →
      e = ERRNO_WOULD_BLOCK → m = memory ∧ st = state) := by
  constructor
  · intro memory state buf buf_len bytes_read m st e h he
    simp only [read_request_body] at h
    split at h
    · split at h
      · exact absurd h (by simp)
      · rw [Except.ok.injEq, Prod.mk.injEq, Prod.mk.injEq] at h
        rw [he] at h
        exact absurd h.2.2.symm (by simp [ERRNO_OK, ERRNO_WOULD_BLOCK])
    · split at h
      · rw [Except.ok.injEq, Prod.mk.injEq, Prod.mk.injEq] at h
        exact ⟨h.1.symm, h.2.1.symm⟩
      · split at h
        · exact absurd h (by simp)
        · split at h
          · exact absurd h (by simp)
          · rw [Except.ok.injEq, Prod.mk.injEq, Prod.mk.injEq] at h
            rw [he] at h
            exact absurd h.2.2.symm (by simp [ERRNO_OK, ERRNO_WOULD_BLOCK])
  · intro memory state data data_len bytes_written m st e h he
    simp only [write_response_body] at h
    split at h
    · exact absurd h (by simp)
    · split at h
      · rw [Except.ok.injEq, Prod.mk.injEq, Prod.mk.injEq] at h
        exact ⟨h.1.symm, h.2.1.symm⟩
      · split at h
        · exact absurd h (by simp)
        · rw [Except.ok.injEq, Prod.mk.injEq, Prod.mk.injEq] at h
          rw [he] at h
          exact absurd h.2.2.symm (by simp [ERRNO_OK, ERRNO_WOULD_BLOCK])

/-- C10 witness: both functions at concrete would-block inputs, memory and
state returned untouched. -/
theorem C10_would_block_frame_witness :
    [0, 0, 0, 0, 0] = [0, 0, 0, 0, 0] ∧
    (⟨[], [], false, []⟩ : WasmEndpointState) = ⟨[], [], false, []⟩ ∧
    [7, 7, 7, 7] = [7, 7, 7, 7] ∧
    (⟨[], [], false, [1]⟩ : WasmEndpointState) = ⟨[], [], false, [1]⟩ := by
  have h1 := C10_would_block_frame.1 [0, 0, 0, 0, 0] ⟨[], [], false, []⟩ 0 2 4
    [0, 0, 0, 0, 0] ⟨[], [], false, []⟩ ERRNO_WOULD_BLOCK rfl rfl
  have h2 := C10_would_block_frame.2 [7, 7, 7, 7] ⟨[], [], false, [1]⟩ 0 0 0
    [7, 7, 7, 7] ⟨[], [], false, [1]⟩ ERRNO_WOULD_BLOCK rfl rfl
  exact ⟨h1.1, h1.2, h2.1, h2.2⟩

lemma free_capacity_eq (l : Nat) (h : l ≤ 4096) :
    (4096 + U32MOD - l % U32MOD) % U32MOD = 4096 - l := by
  have h1 : l % U32MOD = l := Nat.mod_eq_of_lt (by unfold U32MOD; omega)
  rw [h1, Nat.mod_eq_sub_mod (by omega), Nat.mod_eq_of_lt (by unfold U32MOD; omega)]
  omega

lemma resolveFuture_response_le (st : WasmEndpointState) (f : PollFuture) (oc : IoOutcome)
    (st' : WasmEndpointState) (ev : RawEvent)
    (h : resolveFuture st f oc = some (st', ev)) :
    st'.response_body_buf.length ≤ st.response_body_buf.length := by
  cases f <;> cases oc <;> simp only [resolveFuture] at h
  all_goals try split at h
  all_goals try split at h
  all_goals try exact Option.noConfusion h
  all_goals injection h with h1
  all_goals injection h1 with h2 h3
  all_goals subst h2
  all_goals simp

/-- C7 (confirmed): the outbound body buffer never exceeds 4096 bytes —
if it is within the cap before `write_response_body` or before any
completing `poll`, it is within the cap afterwards. -/
theorem C7_outbound_buffer_cap :
    (∀ (memory : List Nat) (state : WasmEndpointState) (data data_len bytes_written : Nat)
      (m : List Nat) (st : WasmEndpointState) (e : Int),
      state.response_body_buf.length ≤ 4096 →
      write_response_body memory state data data_len bytes_written = Except.ok (m, st, e) →
      st.response_body_buf.length ≤ 4096) ∧
    (∀ (memory : List Nat) (state : WasmEndpointState)
      (subscriptions num_subscriptions event winner : Nat) (outcome : IoOutcome)
      (m : List Nat) (st : WasmEndpointState) (ev : RawEvent),
      state.response_body_buf.length ≤ 4096 →
      poll memory state subscriptions num_subscriptions event winner outcome =
        PollResult.ok m st ev →
      st.response_body_buf.length ≤ 4096) := by
  constructor
  · intro memory state data data_len bytes_written m st e hcap h
    simp only [write_response_body, free_capacity_eq state.response_body_buf.length hcap] at h
    split at h
    · exact absurd h (by simp)
    · split at h
      · injection h with h1
        injection h1 with h2 h3
        injection h3 with h4 h5
        subst h4
        exact hcap
      · split at h
        · exact absurd h (by simp)
        · injection h with h1
          injection h1 with h2 h3
          injection h3 with h4 h5
          subst h4
          simp only [List.length_append, List.length_take]
          have := Nat.min_le_right data_len (4096 - state.response_body_buf.length)
          omega
  · intro memory state subscriptions num_subscriptions event winner outcome m st ev hcap h
    simp only [poll] at h
    split at h
    · exact absurd h (by simp)
    · split at h
      · split at h <;> exact absurd h (by simp)
      · split at h
        · exact absurd h (by simp)
        · injection h with h1 h2 h3
          subst h2
          exact le_trans (resolveFuture_response_le state _ outcome _ _ (by assumption)) hcap

/-- C7 witness: a concrete `write_response_body` call and a concrete
completing `poll` call, each preserving the cap. -/
theorem C7_outbound_buffer_cap_witness :
    (⟨[], [], false, [1, 2, 7, 7]⟩ : WasmEndpointState).response_body_buf.length ≤ 4096 ∧
    (⟨[], [], false, []⟩ : WasmEndpointState).response_body_buf.length ≤ 4096 := by
  have h1 := C7_outbound_buffer_cap.1 (List.replicate 8 7) ⟨[], [], false, [1, 2]⟩ 0 2 4
    (writeBytes (List.replicate 8 7) 4 (leBytes 4 2)) ⟨[], [], false, [1, 2, 7, 7]⟩ ERRNO_OK
    (by decide) rfl
  have h2 := C7_outbound_buffer_cap.2
    ([3, 0, 0, 0, 7, 0, 0, 0, 0, 0, 0, 0, 5, 0, 0, 0] ++ List.replicate 16 0)
    ⟨[], [], false, []⟩ 0 1 16 0 IoOutcome.timerFired
    (writeBytes ([3, 0, 0, 0, 7, 0, 0, 0, 0, 0, 0, 0, 5, 0, 0, 0] ++ List.replicate 16 0)
      16 (encodeRawEvent ⟨3, 7, 0⟩))
    ⟨[], [], false, []⟩ ⟨3, 7, 0⟩ (by decide) (by decide)
  exact ⟨h1, h2⟩

lemma get_memory_slice_mut_error_eq (memory : List Nat) (offset len : Nat)
    (e : WasmHandlerError) (h : get_memory_slice_mut memory offset len = Except.error e) :
    e = WasmHandlerError.MemoryAccess := by
  simp only [get_memory_slice_mut] at h
  split at h
  · exact absurd h (by simp)
  · injection h with h1
    exact h1.symm

/-- C8 counterexample: status `0` fits a 16-bit value, yet `send_response`
fails with `InvalidStatusCode` (the `http` crate rejects codes below 100),
so "fails iff the status does not fit 16 bits" is false. -/
theorem C8_claim_false :
    (0 : Nat) ≤ 65535 ∧
    send_response [0, 0, 0, 0] 0 0 0 =
      SendOutcome.fatal WasmHandlerError.InvalidStatusCode := by
  exact ⟨by decide, rfl⟩

/-- C8 (amended): `send_response` fails with `InvalidStatusCode` exactly
when the status is not an acceptable HTTP status code — above `u16::MAX`,
or outside `100..=999` (the range `StatusCode::from_u16` accepts); for
every status in `100..=999` it proceeds to the header block, and with a
valid UTF-8 header region it delivers the status and decoded headers
through the response notifier. -/
theorem C8_send_response :
    ∀ (memory : List Nat) (status headers_buf headers_buf_len : Nat),
      (send_response memory status headers_buf headers_buf_len =
          SendOutcome.fatal WasmHandlerError.InvalidStatusCode ↔
        ¬ (100 ≤ status ∧ status ≤ 999)) ∧
      (100 ≤ status → status ≤ 999 →
        headers_buf + headers_buf_len ≤ memory.length →
        headers_buf_len < U32MOD → memory.length < U32MOD →
        utf8Valid (readBytes memory headers_buf headers_buf_len) = true →
        send_response memory status headers_buf headers_buf_len =
          SendOutcome.delivered status
            (decode_headers (readBytes memory headers_buf headers_buf_len))) := by
  intro memory status headers_buf headers_buf_len
  constructor
  · by_cases hbig : 65535 < status
    · constructor
      · intro _
        omega
      · intro _
        simp only [send_response]
        rw [if_pos hbig]
    · have hmod : status % 65536 = status := Nat.mod_eq_of_lt (by omega)
      by_cases hok : statusCode_from_u16_ok (status % 65536) = true
      · have hrange : 100 ≤ status ∧ status ≤ 999 := by
          rw [hmod] at hok
          simp only [statusCode_from_u16_ok, Bool.and_eq_true, decide_eq_true_eq] at hok
          exact hok
        constructor
        · intro habs
          simp only [send_response] at habs
          rw [if_neg hbig, if_neg (by simp [hok])] at habs
          split at habs
          · injection habs with h1
            have := get_memory_slice_mut_error_eq memory headers_buf headers_buf_len _
              (by assumption)
            subst this
            exact absurd h1.symm (by simp)
          · split at habs
            · exact absurd habs (by simp)
            · exact absurd habs (by simp)
        · intro h
          exact absurd hrange h
      · have hrange : ¬ (100 ≤ status ∧ status ≤ 999) := by
          rw [hmod] at hok
          simp only [statusCode_from_u16_ok, Bool.and_eq_true, decide_eq_true_eq] at hok
          omega
        constructor
        · intro _
          exact hrange
        · intro _
          simp only [send_response]
          rw [if_neg hbig, if_pos (by simp [hok])]
  · intro h100 h999 hin hl hm hutf
    have hmod : status % 65536 = status := Nat.mod_eq_of_lt (by omega)
    have hok : statusCode_from_u16_ok (status % 65536) = true := by
      simp only [statusCode_from_u16_ok, hmod, Bool.and_eq_true, decide_eq_true_eq]
      omega
    simp only [send_response]
    rw [if_neg (by omega), if_neg (by simp [hok]),
      get_memory_slice_mut_eq_ok memory headers_buf headers_buf_len hin (by omega)]
    simp only [hutf, if_true, hmod]

/-- C8 witness: status `200` with the ASCII header text `"Hi"` is
delivered; status `1000` (fits 16 bits, not a valid code) fails. -/
theorem C8_send_response_witness :
    send_response [72, 105] 200 0 2 =
      SendOutcome.delivered 200 (decode_headers (readBytes [72, 105] 0 2)) ∧
    send_response [72, 105] 1000 0 2 =
      SendOutcome.fatal WasmHandlerError.InvalidStatusCode := by
  have h := C8_send_response [72, 105] 200 0 2
  have h2 := C8_send_response [72, 105] 1000 0 2
  exact ⟨h.2 (by decide) (by decide) (by decide) (by decide) (by decide) (by decide),
    h2.1.mpr (by decide)⟩

/-- C1 (code bug): `poll` writes its event record through an unchecked raw
pointer — with a 32-byte memory holding one valid timeout subscription and
an event offset of `1000`, far beyond the memory size, the call completes
with `PollResult.ok` (the out-of-range write is undefined behavior in the
source) instead of failing with `MemoryAccess`; the subscription-array
read at lines 157–161 is equally unvalidated. -/
theorem C1_poll_unchecked_event_write :
    ([3, 0, 0, 0, 7, 0, 0, 0, 0, 0, 0, 0, 5, 0, 0, 0] ++
        List.replicate 16 (0 : Nat)).length < 1000 + 16 ∧
    poll ([3, 0, 0, 0, 7, 0, 0, 0, 0, 0, 0, 0, 5, 0, 0, 0] ++ List.replicate 16 0)
        ⟨[], [], false, []⟩ 0 1 1000 0 IoOutcome.timerFired =
      PollResult.ok
        ([3, 0, 0, 0, 7, 0, 0, 0, 0, 0, 0, 0, 5, 0, 0, 0] ++ List.replicate 16 0)
        ⟨[], [], false, []⟩ ⟨3, 7, 0⟩ := by
  exact ⟨by decide, by decide⟩

/-- Whether a future is the request-readable reader. -/
def PollFuture.isReqRead : PollFuture → Bool
  | PollFuture.reqRead _ => true
  | _ => false

/-- Whether a future is the response-writable writer. -/
def PollFuture.isRespWrite : PollFuture → Bool
  | PollFuture.respWrite _ => true
  | _ => false

/-- Whether a future is a timer. -/
def PollFuture.isTimer : PollFuture → Bool
  | PollFuture.timer _ _ => true
  | _ => false

/-- The guest-chosen userdata a future carries. -/
def futureUserdata : PollFuture → Nat
  | PollFuture.reqRead u => u
  | PollFuture.respWrite u => u
  | PollFuture.timer u _ => u

lemma filter_isReqRead_timers (subs : List RawSubscription) :
    ((subs.filter (fun s => s.ty == SUBSCRIPTION_TYPE_TIMEOUT)).map
      (fun s => PollFuture.timer s.userdata s.timeout)).filter PollFuture.isReqRead = [] := by
  rw [List.filter_map]
  have : (PollFuture.isReqRead ∘ fun s : RawSubscription =>
      PollFuture.timer s.userdata s.timeout) = fun _ => false := by
    funext s
    rfl
  rw [this, List.filter_false, List.map_nil]

lemma filter_isRespWrite_timers (subs : List RawSubscription) :
    ((subs.filter (fun s => s.ty == SUBSCRIPTION_TYPE_TIMEOUT)).map
      (fun s => PollFuture.timer s.userdata s.timeout)).filter PollFuture.isRespWrite = [] := by
  rw [List.filter_map]
  have : (PollFuture.isRespWrite ∘ fun s : RawSubscription =>
      PollFuture.timer s.userdata s.timeout) = fun _ => false := by
    funext s
    rfl
  rw [this, List.filter_false, List.map_nil]

lemma find?_first_of_prefix (subs pre post : List RawSubscription) (s : RawSubscription)
    (p : RawSubscription → Bool) (hsubs : subs = pre ++ s :: post)
    (hty : p s = true) (hpre : ∀ t ∈ pre, p t = false) :
    subs.find? p = some s := by
  subst hsubs
  rw [List.find?_append, List.find?_eq_none.mpr (fun x hx => by simp [hpre x hx]),
    List.find?_cons_of_pos _ hty, Option.none_or]

/-- C9 (confirmed): `poll` honors exactly the first request-readable
subscription (if any) and exactly the first response-writable subscription
(if any) — later subscriptions of those kinds are ignored — while every
timeout subscription becomes an independent timer in list order, and every
honored source resolves with an event echoing its subscription's
userdata. -/
theorem C9_poll_subscriptions :
    ∀ (subs pre post : List RawSubscription) (s : RawSubscription),
      (subs = pre ++ s :: post → s.ty = SUBSCRIPTION_TYPE_REQUEST_READ →
        (∀ t ∈ pre, t.ty ≠ SUBSCRIPTION_TYPE_REQUEST_READ) →
        (pollFutures subs).filter PollFuture.isReqRead =
          [PollFuture.reqRead s.userdata]) ∧
      ((∀ t ∈ subs, t.ty ≠ SUBSCRIPTION_TYPE_REQUEST_READ) →
        (pollFutures subs).filter PollFuture.isReqRead = []) ∧
      (subs = pre ++ s :: post → s.ty = SUBSCRIPTION_TYPE_RESPONSE_WRITE →
        (∀ t ∈ pre, t.ty ≠ SUBSCRIPTION_TYPE_RESPONSE_WRITE) →
        (pollFutures subs).filter PollFuture.isRespWrite =
          [PollFuture.respWrite s.userdata]) ∧
      ((∀ t ∈ subs, t.ty ≠ SUBSCRIPTION_TYPE_RESPONSE_WRITE) →
        (pollFutures subs).filter PollFuture.isRespWrite = []) ∧
      ((pollFutures subs).filter PollFuture.isTimer =
        (subs.filter (fun t => t.ty == SUBSCRIPTION_TYPE_TIMEOUT)).map
          (fun t => PollFuture.timer t.userdata t.timeout)) ∧
      (∀ (st st' : WasmEndpointState) (f : PollFuture) (oc : IoOutcome) (ev : RawEvent),
        resolveFuture st f oc = some (st', ev) → ev.userdata = futureUserdata f) := by
  intro subs pre post s
  refine ⟨?_, ?_, ?_, ?_, ?_, ?_⟩
  · intro hsubs hty hpre
    have hfind := find?_first_of_prefix subs pre post s
      (fun t => t.ty == SUBSCRIPTION_TYPE_REQUEST_READ) hsubs (by simp [hty])
      (fun t ht => by simp [hpre t ht])
    simp only [pollFutures, hfind, List.filter_append, filter_isReqRead_timers]
    rcases hB : subs.find? (fun t => t.ty == SUBSCRIPTION_TYPE_RESPONSE_WRITE) with - | t <;>
      simp [hB, PollFuture.isReqRead]
  · intro hnone
    have hfind : subs.find? (fun t => t.ty == SUBSCRIPTION_TYPE_REQUEST_READ) = none :=
      List.find?_eq_none.mpr (fun x hx => by simp [hnone x hx])
    simp only [pollFutures, hfind, List.filter_append, filter_isReqRead_timers]
    rcases hB : subs.find? (fun t => t.ty == SUBSCRIPTION_TYPE_RESPONSE_WRITE) with - | t <;>
      simp [hB, PollFuture.isReqRead]
  · intro hsubs hty hpre
    have hfind := find?_first_of_prefix subs pre post s
      (fun t => t.ty == SUBSCRIPTION_TYPE_RESPONSE_WRITE) hsubs (by simp [hty])
      (fun t ht => by simp [hpre t ht])
    simp only [pollFutures, hfind, List.filter_append, filter_isRespWrite_timers]
    rcases hA : subs.find? (fun t => t.ty == SUBSCRIPTION_TYPE_REQUEST_READ) with - | t <;>
      simp [hA, PollFuture.isRespWrite]
  · intro hnone
    have hfind : subs.find? (fun t => t.ty == SUBSCRIPTION_TYPE_RESPONSE_WRITE) = none :=
      List.find?_eq_none.mpr (fun x hx => by simp [hnone x hx])
    simp only [pollFutures, hfind, List.filter_append, filter_isRespWrite_timers]
    rcases hA : subs.find? (fun t => t.ty == SUBSCRIPTION_TYPE_REQUEST_READ) with - | t <;>
      simp [hA, PollFuture.isRespWrite]
  · have htimers : ((subs.filter (fun t => t.ty == SUBSCRIPTION_TYPE_TIMEOUT)).map
        (fun t => PollFuture.timer t.userdata t.timeout)).filter PollFuture.isTimer =
        (subs.filter (fun t => t.ty == SUBSCRIPTION_TYPE_TIMEOUT)).map
          (fun t => PollFuture.timer t.userdata t.timeout) := by
      rw [List.filter_map]
      have : (PollFuture.isTimer ∘ fun t : RawSubscription =>
          PollFuture.timer t.userdata t.timeout) = fun _ => true := by
        funext t
        rfl
      rw [this, List.filter_true]
    simp only [pollFutures, List.filter_append, htimers]
    rcases hA : subs.find? (fun t => t.ty == SUBSCRIPTION_TYPE_REQUEST_READ) with - | t <;>
      rcases hB : subs.find? (fun t => t.ty == SUBSCRIPTION_TYPE_RESPONSE_WRITE) with - | u <;>
      simp [hA, hB, PollFuture.isTimer]
  · intro st st' f oc ev h
    cases f <;> cases oc <;> simp only [resolveFuture] at h
    all_goals try split at h
    all_goals try split at h
    all_goals try exact Option.noConfusion h
    all_goals injection h with h1
    all_goals injection h1 with h2 h3
    all_goals subst h3
    all_goals rfl

/-- C9 witness: a list with a timeout, two request-readable and one
response-writable subscription — one reader future for the first
request-readable entry, one writer future, one timer; and a concrete
resolution echoing the userdata. -/
theorem C9_poll_subscriptions_witness :
    (pollFutures [⟨3, 40, 9⟩, ⟨1, 41, 0⟩, ⟨1, 42, 0⟩, ⟨2, 43, 0⟩]).filter
        PollFuture.isReqRead = [PollFuture.reqRead 41] ∧
    (pollFutures [⟨3, 40, 9⟩, ⟨1, 41, 0⟩, ⟨1, 42, 0⟩, ⟨2, 43, 0⟩]).filter
        PollFuture.isTimer = [PollFuture.timer 40 9] ∧
    (⟨3, 40, 0⟩ : RawEvent).userdata = futureUserdata (PollFuture.timer 40 9) := by
  have h := C9_poll_subscriptions [⟨3, 40, 9⟩, ⟨1, 41, 0⟩, ⟨1, 42, 0⟩, ⟨2, 43, 0⟩]
    [⟨3, 40, 9⟩] [⟨1, 42, 0⟩, ⟨2, 43, 0⟩] ⟨1, 41, 0⟩
  refine ⟨h.1 rfl rfl (by decide), by decide, ?_⟩
  exact h.2.2.2.2.2 ⟨[], [], false, []⟩ ⟨[], [], false, []⟩ (PollFuture.timer 40 9)
    IoOutcome.timerFired ⟨3, 40, 0⟩ rfl

/-- The per-call consumption of the inbound buffer by a sequence of
`read_request_body` calls with the given `buf_len` arguments: each call
takes `min buf_len available` bytes off the front (the step established
against `read_request_body` in the round-trip theorem); returns the list
of byte runs produced and the final buffer. -/
def consumeSeq : List Nat → List Nat → List (List Nat) × List Nat
  | buf, [] => ([], buf)
  | buf, n :: rest =>
    let sz := min n buf.length
    let r := consumeSeq (buf.drop sz) rest
    (buf.take sz :: r.1, r.2)

lemma consumeSeq_join (lens : List Nat) :
    ∀ buf : List Nat, (consumeSeq buf lens).1.flatten ++ (consumeSeq buf lens).2 = buf := by
  induction lens with
  | nil => intro buf; simp [consumeSeq]
  | cons n rest ih =>
    intro buf
    simp only [consumeSeq, List.flatten_cons, List.append_assoc, ih (buf.drop (min n buf.length))]
    exact List.take_append_drop _ buf

lemma resolveFuture_readOk_append (st : WasmEndpointState) (f : PollFuture)
    (bytes : List Nat) (st' : WasmEndpointState) (ev : RawEvent)
    (h : resolveFuture st f (IoOutcome.readOk bytes) = some (st', ev)) (hne : bytes ≠ []) :
    st'.request_body_buf = st.request_body_buf ++ bytes := by
  cases f <;> simp only [resolveFuture] at h
  all_goals try exact Option.noConfusion h
  split at h
  · exact Option.noConfusion h
  · split at h
    · exact absurd (List.length_eq_zero.mp (by assumption)) hne
    · injection h with h1
      injection h1 with h2 h3
      subst h2
      rfl

/-- C6 (confirmed): the FIFO round trip between `poll`'s request-readable
append path and `read_request_body`'s consume path — every completing
`poll` whose reader won with `n > 0` fresh bytes appends exactly those
bytes to the inbound buffer tail; every copying `read_request_body` call
removes exactly `min buf_len available` bytes from the buffer front and
hands the guest exactly those bytes; and any call sequence that drains the
buffer returns the appended chunks' concatenation — same bytes, same
order, no loss, no duplication. -/
theorem C6_fifo_round_trip :
    (∀ (memory : List Nat) (state : WasmEndpointState)
      (subscriptions num_subscriptions event winner : Nat) (bytes : List Nat)
      (m : List Nat) (st : WasmEndpointState) (ev : RawEvent),
      poll memory state subscriptions num_subscriptions event winner
        (IoOutcome.readOk bytes) = PollResult.ok m st ev →
      bytes ≠ [] →
      st.request_body_buf = state.request_body_buf ++ bytes) ∧
    (∀ (memory : List Nat) (state : WasmEndpointState) (buf buf_len bytes_read : Nat),
      state.request_body_eof = false → state.request_body_buf ≠ [] →
      memory.length < U32MOD → state.request_body_buf.length < U32MOD →
      buf + min buf_len state.request_body_buf.length ≤ memory.length →
      bytes_read + 4 ≤ memory.length →
      (buf + min buf_len state.request_body_buf.length ≤ bytes_read ∨
        bytes_read + 4 ≤ buf) →
      ∃ m, read_request_body memory state buf buf_len bytes_read =
          Except.ok (m,
            { state with request_body_buf :=
                state.request_body_buf.drop (min buf_len state.request_body_buf.length) },
            ERRNO_OK) ∧
        readBytes m buf (min buf_len state.request_body_buf.length) =
          state.request_body_buf.take (min buf_len state.request_body_buf.length)) ∧
    (∀ (chunks : List (List Nat)) (lens : List Nat),
      (consumeSeq chunks.flatten lens).2 = [] →
      (consumeSeq chunks.flatten lens).1.flatten = chunks.flatten) := by
  refine ⟨?_, ?_, ?_⟩
  · intro memory state subscriptions num_subscriptions event winner bytes m st ev h hne
    simp only [poll] at h
    split at h
    · exact absurd h (by simp)
    · split at h
      · split at h <;> exact absurd h (by simp)
      · split at h
        · exact absurd h (by simp)
        · injection h with h1 h2 h3
          subst h2
          exact resolveFuture_readOk_append state _ bytes _ _ (by assumption) hne
  · intro memory state buf buf_len bytes_read heof hne hm hL hbuf hbr hdisj
    have hmodL : state.request_body_buf.length % U32MOD = state.request_body_buf.length :=
      Nat.mod_eq_of_lt hL
    have hlen : ¬ (state.request_body_buf.length = 0) := by
      simpa [List.length_eq_zero] using hne
    have hsz : min buf_len (state.request_body_buf.length % U32MOD) =
        min buf_len state.request_body_buf.length := by rw [hmodL]
    have hszlt : min buf_len state.request_body_buf.length < U32MOD := by
      have := Nat.min_le_right buf_len state.request_body_buf.length
      omega
    have htklen : (state.request_body_buf.take
        (min buf_len state.request_body_buf.length)).length =
        min buf_len state.request_body_buf.length := by
      simp only [List.length_take]
      have := Nat.min_le_right buf_len state.request_body_buf.length
      omega
    have hW : (writeBytes memory buf (state.request_body_buf.take
        (min buf_len state.request_body_buf.length))).length = memory.length :=
      length_writeBytes _ _ _
    refine ⟨writeBytes (writeBytes memory buf (state.request_body_buf.take
        (min buf_len state.request_body_buf.length))) bytes_read
        (leBytes 4 (min buf_len state.request_body_buf.length)), ?_, ?_⟩
    · simp only [read_request_body, heof, Bool.false_eq_true, if_false, hlen, hsz,
        get_memory_slice_mut_eq_ok memory buf (min buf_len state.request_body_buf.length)
          hbuf (by omega),
        set_ret_len_eq_ok _ bytes_read _ (by rw [hW]; exact hbr) (by rw [hW]; exact hm),
        Nat.mod_eq_of_lt hszlt]
    · have hin : bytes_read + (leBytes 4 (min buf_len state.request_body_buf.length)).length ≤
          (writeBytes memory buf (state.request_body_buf.take
            (min buf_len state.request_body_buf.length))).length := by
        rw [length_leBytes, hW]
        omega
      have hself : readBytes (writeBytes memory buf (state.request_body_buf.take
          (min buf_len state.request_body_buf.length))) buf
          (min buf_len state.request_body_buf.length) =
          state.request_body_buf.take (min buf_len state.request_body_buf.length) := by
        have := readBytes_writeBytes_self memory buf (state.request_body_buf.take
          (min buf_len state.request_body_buf.length)) (by rw [htklen]; exact hbuf)
        rwa [htklen] at this
      rcases hdisj with hlt | hgt
      · rw [readBytes_writeBytes_before _ _ _ _ _ hin hlt]
        exact hself
      · rw [readBytes_writeBytes_after _ _ _ _ _ hin (by rw [length_leBytes]; omega)]
        exact hself
  · intro chunks lens hdrain
    have h := consumeSeq_join lens chunks.flatten
    rw [hdrain, List.append_nil] at h
    exact h

/-- C6 witness: chunks `[5, 6]` then `[7]` appended by two completing
polls, then drained by reads of 2 and 1 bytes: the runs concatenate back
to `[5, 6, 7]`. -/
theorem C6_fifo_round_trip_witness :
    (⟨[], [5, 6], false, []⟩ : WasmEndpointState).request_body_buf = [] ++ [5, 6] ∧
    (∃ m, read_request_body (List.replicate 8 0) ⟨[], [5, 6, 7], false, []⟩ 0 2 4 =
        Except.ok (m, ⟨[], [7], false, []⟩, ERRNO_OK) ∧
      readBytes m 0 2 = [5, 6]) ∧
    (consumeSeq ([[5, 6], [7]] : List (List Nat)).flatten [2, 1]).1.flatten =
      ([[5, 6], [7]] : List (List Nat)).flatten := by
  refine ⟨?_, ?_, ?_⟩
  · exact C6_fifo_round_trip.1
      ([1, 0, 0, 0, 9, 0, 0, 0, 0, 0, 0, 0, 0, 0, 0, 0] : List Nat)
      ⟨[], [], false, []⟩ 0 1 0 0 [5, 6]
      ([1, 0, 0, 0, 9, 0, 0, 0, 0, 0, 0, 0, 0, 0, 0, 0] : List Nat)
      ⟨[], [5, 6], false, []⟩ ⟨1, 9, 0⟩ (by decide) (by decide)
  · have h := C6_fifo_round_trip.2.1 (List.replicate 8 0) ⟨[], [5, 6, 7], false, []⟩ 0 2 4
      rfl (by decide) (by decide) (by decide) (by decide) (by decide) (by decide)
    simpa using h
  · exact C6_fifo_round_trip.2.2 [[5, 6], [7]] [2, 1] (by decide)
